import Mathlib

/-!
Verification of the wagtailtrans translation-tree synchronization engine.

This file gives a shallow embedding of the code in
`src/wagtailtrans/models.py` and `src/wagtailtrans/signals.py`:

* `Language` embeds the `Language` model (code, is_default, position, live).
* `TranslatablePage` embeds the row data of the `TranslatablePage` model
  (id, slug, title, live, tree parent, `canonical_page` FK, `language` FK).
* `TranslatablePageItem` embeds the `TranslatablePageItem` registry model
  (page, canonical_page, language, all FKs by primary key).
* `DB` is the whole database state (plus the host framework's page tree,
  represented through each page's `parent` pointer, and the site table).

Django querysets over a table are embedded as Lean `List` filters; a
queryset without an `order_by` returns rows in table order.  `.first()` is
`List.head?`; `.get()` pattern-matches on a singleton list and raises
`DoesNotExist` / `MultipleObjectsReturned` otherwise.  Python exceptions
are embedded as `Except` errors.  Machinery the host framework (wagtail /
treebeard / Django ORM) provides — `add_child`, `copy`, `move`, site
resolution — is embedded as small `host*` functions that perform exactly
the structural effect the code relies on.
-/

set_option maxRecDepth 10000

namespace Wagtailtrans

/-- The `Language` model: `code` unique, `is_default`, `position`, `live`
(models.py lines 87-107). `id` is the database primary key. -/
structure Language where
  id : Nat
  code : String
  is_default : Bool
  position : Int
  live : Bool
deriving Repr, DecidableEq

/-- Row data of a `TranslatablePage` (models.py lines 312-335) together with
the host framework's tree position: `parent` is the treebeard parent link,
`canonical_page` and `language` are the model's own foreign keys. -/
structure TranslatablePage where
  id : Nat
  slug : String
  title : String
  live : Bool
  parent : Option Nat
  canonical_page : Option Nat
  language : Nat
deriving Repr, DecidableEq

/-- The `TranslatablePageItem` registry model (models.py lines 142-165):
`page` and `canonical_page` are nullable page FKs, `language` a language FK. -/
structure TranslatablePageItem where
  page : Option Nat
  canonical_page : Option Nat
  language : Nat
deriving Repr, DecidableEq

/-- A wagtail `Site`: its id and the id of its root page. -/
structure Site where
  id : Nat
  root_page : Nat
deriving Repr, DecidableEq

/-- A `SiteLanguages` settings record (models.py lines 452-469). -/
structure SiteLanguagesRec where
  site : Nat
  default_language : Option Nat
  other_languages : List Nat
deriving Repr, DecidableEq

/-- The two configuration flags consumed by the engine:
`WAGTAILTRANS_SYNC_TREE` and `WAGTAILTRANS_LANGUAGES_PER_SITE`. -/
structure Settings where
  sync_tree : Bool
  languages_per_site : Bool
deriving Repr, DecidableEq

/-- The full persisted state: all tables, plus the next free page id used by
the host framework when it inserts a new page row. -/
structure DB where
  languages : List Language
  pages : List TranslatablePage
  items : List TranslatablePageItem
  sites : List Site
  site_languages : List SiteLanguagesRec
  nextId : Nat
deriving Repr, DecidableEq

/-- `TranslatablePage.objects.filter(pk=pid).first()` — primary-key lookup. -/
def findPage (db : DB) (pid : Nat) : Option TranslatablePage :=
  db.pages.find? (fun p => p.id == pid)

/-- `Language.objects.filter(pk=lid).first()` — primary-key lookup. -/
def findLanguage (db : DB) (lid : Nat) : Option Language :=
  db.languages.find? (fun l => l.id == lid)

/-- The tree parent of a page, read through the host framework. -/
def pageParent (db : DB) (pid : Nat) : Option Nat :=
  match findPage db pid with
  | some p => p.parent
  | none => none

/-- `TranslatablePageMixin.translatable_page_item` (models.py lines 176-179):
`TranslatablePageItem.objects.filter(page=self).first()`. -/
def translatable_page_item (db : DB) (pid : Nat) : Option TranslatablePageItem :=
  (db.items.filter (fun it => it.page == some pid)).head?

/-- `TranslatablePageMixin.language` (models.py lines 169-174): the language
of the page's first translatable-page item, or `None`. -/
def mixinLanguage (db : DB) (pid : Nat) : Option Language :=
  match translatable_page_item db pid with
  | some it => findLanguage db it.language
  | none => none

/-- The language primary key carried by the page's translatable-page item,
used where the code compares language instances for equality. -/
def mixinItemLanguageId (db : DB) (pid : Nat) : Option Nat :=
  match translatable_page_item db pid with
  | some it => some it.language
  | none => none

/-- Modelled from the spec: `Language.objects.default()` (the missing
`managers.py`; spec section 4.1 — in global mode the registry holds a single
language with `is_default = true` and `default()` returns it). -/
def defaultLanguageId (db : DB) : Option Nat :=
  match db.languages.find? (fun l => l.is_default) with
  | some l => some l.id
  | none => none

/-- Host-framework ancestry test: `anc` is an ancestor of (or equal to) the
page `pid`, following tree `parent` links with fuel to stay total. -/
def isAncestorOrSelf (db : DB) (anc : Nat) : Nat → Nat → Bool
  | 0, _ => false
  | fuel + 1, pid =>
    if pid == anc then true
    else
      match findPage db pid with
      | some p =>
        match p.parent with
        | some q => isAncestorOrSelf db anc fuel q
        | none => false
      | none => false

/-- Host-framework `Page.get_site()` (spec section 6, "site resolution from a
node"): the site whose root page the node lives under. -/
def get_site (db : DB) (pid : Nat) : Option Site :=
  db.sites.find? (fun s => isAncestorOrSelf db s.root_page (db.pages.length + 1) pid)

/-- `Language.has_pages_in_site` (models.py lines 112-113): true when any
`TranslatablePageItem` has a page under the site's root (the language
argument of the Python method is unused by its body). -/
def has_pages_in_site (db : DB) (s : Site) : Bool :=
  db.items.any (fun it =>
    match it.page with
    | some pg => isAncestorOrSelf db s.root_page (db.pages.length + 1) pg
    | none => false)

/-- `TranslatablePageMixin.has_translation` (models.py lines 196-203):
a `TranslatablePageItem` with this canonical page and language exists. -/
def has_translation (db : DB) (pid : Nat) (lid : Nat) : Bool :=
  db.items.any (fun it => it.canonical_page == some pid && it.language == lid)

/-- Whether the page's own language row is live (`language__live=True` join);
a dangling language FK joins to no row and the filter drops it. -/
def langLive (db : DB) (lid : Nat) : Bool :=
  match findLanguage db lid with
  | some l => l.live
  | none => false

/-- `TranslatablePage.get_translations` (models.py lines 339-358): resolve
the canonical id (`self.canonical_page_id or self.pk`), take all pages whose
`canonical_page` is that id or whose pk is that id, exclude `self` unless
`include_self`, and when `only_live` keep only live pages in live languages.
The queryset has no `order_by`, so rows come back in table order. -/
def get_translations (db : DB) (p : TranslatablePage) (only_live include_self : Bool) :
    List TranslatablePage :=
  let canonical_page_id :=
    match p.canonical_page with
    | some c => c
    | none => p.id
  let ts := db.pages.filter
    (fun q => q.canonical_page == some canonical_page_id || q.id == canonical_page_id)
  let ts := if include_self then ts else ts.filter (fun q => q.id != p.id)
  if only_live then ts.filter (fun q => q.live && langLive db q.language) else ts

/-- The value of the `parent` local in `create_translation`: either a page
(the explicitly supplied parent, or `site.root_page`), a
`TranslatablePageItem` (what the item queryset's `.first()` yields when it
finds a row), or Python `None` (when `.first()` finds nothing). -/
inductive TPParent where
  | page (id : Nat)
  | item (it : TranslatablePageItem)
  | nil
deriving Repr, DecidableEq

/-- Errors raised on the `create_translation` path: the
"Translation already exists" exception (spec: `ConflictError`), attribute /
type errors from using a non-page as a parent or a missing language, and
database-level failure inserting a row. -/
inductive CTError where
  | conflict
  | attributeError
  | dbError
deriving Repr, DecidableEq

/-- `TranslatablePageMixin.get_translation_parent` (models.py lines
294-309): if the language has no pages in the site, the site root page;
otherwise the first `TranslatablePageItem` under the site root whose
`canonical_page` is `self.get_parent()` and whose language matches — note
the Python returns the *item* itself, not its page — or `None` when no such
item exists.  Fails when the page belongs to no site (`site.root_page` on
`None`). -/
def get_translation_parent (db : DB) (pid : Nat) (lid : Nat) :
    Except CTError TPParent :=
  match get_site db pid with
  | none => .error .attributeError
  | some s =>
    if !has_pages_in_site db s then .ok (.page s.root_page)
    else
      match (db.items.filter (fun it =>
        (match it.page with
         | some pg => isAncestorOrSelf db s.root_page (db.pages.length + 1) pg
         | none => false)
        && it.canonical_page == pageParent db pid
        && it.language == lid)).head? with
      | some it => .ok (.item it)
      | none => .ok .nil

/-- Python equality between the resolved `parent` and `self.get_parent()`
(`parent != self.get_parent()` in models.py line 234): a page equals the
parent page with the same pk, `None` equals `None`, an item equals
nothing. -/
def tpParentEqOpt (t : TPParent) (o : Option Nat) : Bool :=
  match t, o with
  | .page p, some q => p == q
  | .nil, none => true
  | _, _ => false

/-- Host-framework `Page.copy(update_attrs=..., to=...)` (spec section 6):
inserts a copy of `p` with the computed title/slug and `live = False`,
under `to` when a page is supplied, under `p`'s own parent when `to` is
`None` or absent; copying "to" a `TranslatablePageItem` is a host-side type
error.  The model FK fields `canonical_page`/`language` are concrete fields
and are copied from the source. -/
def hostCopy (db : DB) (p : TranslatablePage) (slug : String)
    (toArg : Option TPParent) : Except CTError (Nat × DB) :=
  match toArg with
  | some (.item _) => .error .attributeError
  | some (.page pp) =>
    .ok (db.nextId, { db with pages := db.pages ++ [({ id := db.nextId, slug := slug, title := p.title, live := false, parent := some pp, canonical_page := p.canonical_page, language := p.language } : TranslatablePage)], nextId := db.nextId + 1 })
  | some .nil | none =>
    .ok (db.nextId, { db with pages := db.pages ++ [({ id := db.nextId, slug := slug, title := p.title, live := false, parent := p.parent, canonical_page := p.canonical_page, language := p.language } : TranslatablePage)], nextId := db.nextId + 1 })

/-- Host-framework `parent.add_child(instance=model_class(**update_attrs))`
(spec section 6): inserts a fresh row of the page model with only
title/slug/`live = False` set; the model's `canonical_page` FK defaults to
`NULL` and its `language` FK defaults to `_language_default()` (models.py
lines 132-139), failing at the database when there is no default
language. -/
def hostAddChild (db : DB) (p : TranslatablePage) (slug : String)
    (pp : Nat) : Except CTError (Nat × DB) :=
  match defaultLanguageId db with
  | none => .error .dbError
  | some dl =>
    .ok (db.nextId, { db with pages := db.pages ++ [({ id := db.nextId, slug := slug, title := p.title, live := false, parent := some pp, canonical_page := none, language := dl } : TranslatablePage)], nextId := db.nextId + 1 })

/-- `TranslatablePageMixin.create_translation` (models.py lines 205-249):
raise the conflict exception when `has_translation` already holds; resolve
the parent when none is supplied; compute the slug from the source slug and
the two language codes; build `update_attrs` with `live = False`; either
deep-copy (with `to` set only when the resolved parent differs from the
source's parent) or create an empty child; finally register the
`TranslatablePageItem` and return the new page. -/
def create_translation (db : DB) (pid : Nat) (language : Language)
    (copy_fields : Bool) (parent : Option Nat) : Except CTError (Nat × DB) :=
  if has_translation db pid language.id then .error .conflict
  else
    match findPage db pid with
    | none => .error .attributeError
    | some p =>
      match (match parent with
             | some pp => Except.ok (TPParent.page pp)
             | none => get_translation_parent db pid language.id) with
      | .error e => .error e
      | .ok parentRes =>
        match mixinLanguage db pid with
        | none => .error .attributeError
        | some selfLang =>
          let slug := if p.slug == selfLang.code then language.code
                      else p.slug ++ "-" ++ language.code
          match (if copy_fields then
                   hostCopy db p slug
                     (if tpParentEqOpt parentRes p.parent then none
                      else some parentRes)
                 else
                   match parentRes with
                   | .page pp => hostAddChild db p slug pp
                   | _ => .error .attributeError) with
          | .error e => .error e
          | .ok (newId, db1) =>
            .ok (newId, { db1 with
              items := db1.items ++
                [{ page := some newId, canonical_page := some pid,
                   language := language.id }] })

/-- Errors raised on the `move` path: `TranslatablePage.DoesNotExist` from
`.get()` finding no row (the spec's `SyncPreconditionError`),
`MultipleObjectsReturned` from `.get()` finding several, and attribute
errors from a missing language or site. -/
inductive MoveError where
  | doesNotExist
  | multipleReturned
  | attributeError
deriving Repr, DecidableEq

/-- Host-framework `super().move(target, pos)` on the page table: reparent
the moved page under `target` (sibling ordering via `pos` is host-side and
not observed by the engine). -/
def hostMovePage (pages : List TranslatablePage) (pid target : Nat) :
    List TranslatablePage :=
  pages.map (fun q => if q.id == pid then { q with parent := some target } else q)

/-- The `SiteLanguages.for_site` record used by `move`: the stored record
for the site or an unsaved record with default field values. -/
def siteLanguagesFor (db : DB) (s : Site) : SiteLanguagesRec :=
  match db.site_languages.find? (fun r => r.site == s.id) with
  | some r => r
  | none => { site := s.id, default_language := none, other_languages := [] }

/-- The `is_default` computation in `move` (models.py lines 261-266): with
`LANGUAGES_PER_SITE`, compare the site's `default_language` with the page's
(item-based) language; otherwise read `self.language.is_default`, an
attribute error when the page has no language item. -/
def computeIsDefault (db : DB) (pid : Nat) (st : Settings) :
    Except MoveError Bool :=
  if st.languages_per_site then
    match get_site db pid with
    | none => .error .attributeError
    | some s =>
      .ok ((siteLanguagesFor db s).default_language == mixinItemLanguageId db pid)
  else
    match mixinLanguage db pid with
    | none => .error .attributeError
    | some l => .ok l.is_default

/-- `TranslatablePageMixin.move` called with `suppress_sync=True` — the form
used inside `move_translated_pages` (models.py line 292): the host move
runs, `is_default` is still computed (and can still fail), and the
`not suppress_sync and ...` test then prevents any further propagation. -/
def move_suppressed (db : DB) (pid target : Nat) (_pos : Option Nat)
    (st : Settings) : Except MoveError DB :=
  let db1 : DB := { db with pages := hostMovePage db.pages pid target }
  match computeIsDefault db1 pid st with
  | .error e => .error e
  | .ok _ => .ok db1

/-- The Q-object filter of `move_translated_pages` (models.py lines
287-290): pages of the translation's language whose `canonical_page` is the
(normalized) canonical target or whose pk is the canonical target. -/
def matchesMoveTarget (ct : Nat) (lid : Nat) (q : TranslatablePage) : Bool :=
  q.language == lid && (q.canonical_page == some ct || q.id == ct)

/-- The canonical-target normalization of `move_translated_pages` (models.py
lines 282-283): when the target page has a truthy `canonical_page`
attribute, replace the target by it. -/
def resolveCanonicalTarget (db : DB) (target : Nat) : Nat :=
  match findPage db target with
  | some tp =>
    match tp.canonical_page with
    | some c => c
    | none => target
  | none => target

/-- The `for page in translations` loop of `move_translated_pages`
(models.py lines 285-292): for each translation, `.get()` the unique page
matching the Q filter (raising `DoesNotExist` / `MultipleObjectsReturned`
otherwise) and move the translation there with `suppress_sync=True`. -/
def moveLoop (st : Settings) (ct : Nat) (pos : Option Nat) :
    DB → List TranslatablePage → Except MoveError DB
  | cur, [] => .ok cur
  | cur, t :: ts =>
    match cur.pages.filter (matchesMoveTarget ct t.language) with
    | [tgt] =>
      match move_suppressed cur t.id tgt.id pos st with
      | .ok nxt => moveLoop st ct pos nxt ts
      | .error e => .error e
    | [] => .error .doesNotExist
    | _ => .error .multipleReturned

/-- `TranslatablePageMixin.move_translated_pages` (models.py lines 271-292):
collect `get_translations(only_live=False)`, normalize the canonical
target, and run the move loop. -/
def move_translated_pages (db : DB) (pid : Nat) (canonical_target : Nat)
    (pos : Option Nat) (st : Settings) : Except MoveError DB :=
  match findPage db pid with
  | none => .error .attributeError
  | some p =>
    moveLoop st (resolveCanonicalTarget db canonical_target) pos db
      (get_translations db p false false)

/-- `TranslatablePageMixin.move` (models.py lines 251-269): perform the host
move, compute `is_default`, and when `suppress_sync` is unset, tree sync is
enabled and the page's language is the default, propagate via
`move_translated_pages`. -/
def move (db : DB) (pid target : Nat) (pos : Option Nat)
    (suppress_sync : Bool) (st : Settings) : Except MoveError DB :=
  let db1 : DB := { db with pages := hostMovePage db.pages pid target }
  match computeIsDefault db1 pid st with
  | .error e => .error e
  | .ok isDef =>
    if !suppress_sync && st.sync_tree && isDef then
      move_translated_pages db1 pid target pos st
    else .ok db1

/-- The `for language in Language.objects.filter(is_default=False)` loop of
`signals.synchronize_trees` (signals.py lines 31-32): call
`create_translation(language, copy_fields=True)` for each language in turn,
an exception aborting the whole run. -/
def syncLangLoop (pid : Nat) : DB → List Language → Except CTError DB
  | cur, [] => .ok cur
  | cur, lg :: ls =>
    match create_translation cur pid lg true none with
    | .ok r => syncLangLoop pid r.2 ls
    | .error e => .error e

/-- `signals.synchronize_trees` (signals.py lines 13-32): a no-op unless the
page was just created, tree sync is enabled, the page has a language, that
language `is_default`, and the page has a site; then, for every language
with `is_default=False` (live or not), `create_translation(language,
copy_fields=True)`. -/
def synchronize_trees (db : DB) (pid : Nat) (created : Bool) (st : Settings) :
    Except CTError DB :=
  if !created then .ok db
  else if !st.sync_tree then .ok db
  else
    match mixinLanguage db pid with
    | none => .ok db
    | some l =>
      if !l.is_default then .ok db
      else
        match get_site db pid with
        | none => .ok db
        | some _ => syncLangLoop pid db (db.languages.filter (fun lg => !lg.is_default))

/-- `signals.synchronize_deletions` (signals.py lines 35-46): on pre-delete,
look the instance up as a `TranslatablePage`; when tree sync is enabled and
the row exists, delete every page whose `canonical_page` is that page (the
row removal itself is the host ORM's delete primitive). -/
def synchronize_deletions (db : DB) (pid : Nat) (st : Settings) : DB :=
  match findPage db pid with
  | some pg =>
    if st.sync_tree then
      { db with pages := db.pages.filter (fun q => !(q.canonical_page == some pg.id)) }
    else db
  | none => db

/-- A request as the router sees it: the optional `LANGUAGE_CODE` attribute
and `request.site`. -/
structure RequestInfo where
  language_code : Option String
  site : Nat
deriving Repr, DecidableEq

/-- Modelled from the spec: `Language.objects.default_for_site` (the missing
`managers.py`; spec sections 4.1 and 4.4 — per-site mode reads the site's
`SiteLanguages.default_language`, global mode returns the single language
with `is_default = true`). -/
def default_for_site (db : DB) (st : Settings) (siteId : Nat) : Option Language :=
  if st.languages_per_site then
    match db.site_languages.find? (fun r => r.site == siteId) with
    | some r =>
      match r.default_language with
      | some dl => findLanguage db dl
      | none => none
    | none => none
  else db.languages.find? (fun l => l.is_default)

/-- `get_user_language` (models.py lines 365-376): a live language matching
the request's `LANGUAGE_CODE` wins; otherwise the site default. -/
def get_user_language (db : DB) (st : Settings) (req : RequestInfo) :
    Option Language :=
  match req.language_code with
  | some code =>
    match (db.languages.filter (fun l => l.live && l.code == code)).head? with
    | some l => some l
    | none => default_for_site db st req.site
  | none => default_for_site db st req.site

/-- The Python exception classes observable on the serve path.  Of these, no
class is a subclass of another: `TranslatablePage.DoesNotExist` and
`TranslatablePageItem.DoesNotExist` are distinct per-model classes sharing
only the `ObjectDoesNotExist` base. -/
inductive ExcClass where
  | translatablePageDoesNotExist
  | translatablePageItemDoesNotExist
  | multipleObjectsReturned
  | attributeError
deriving Repr, DecidableEq

/-- Whether an `except handler:` clause catches a raised exception class:
among the modelled classes, only the class itself. -/
def catches (handler raised : ExcClass) : Bool :=
  handler == raised

/-- The outcome of `TranslatableSiteRootPage.serve`: a redirect to a page's
URL, an `Http404`, or an exception that escaped the handler. -/
inductive ServeOutcome where
  | redirect (page : Nat)
  | http404
  | uncaught (e : ExcClass)
deriving Repr, DecidableEq

/-- `TranslatableSiteRootPage.serve` (models.py lines 388-402): resolve the
user language, take the live children of the site root, filter the
`TranslatablePageItem` table to items whose page is such a child and whose
language matches, then `candidates.get()`: one row redirects to its page;
no row raises `TranslatablePageItem.DoesNotExist` and several raise
`MultipleObjectsReturned`, either of which the `except
TranslatablePage.DoesNotExist` clause turns into `Http404` only when it
actually catches that class. -/
def serve (db : DB) (st : Settings) (selfId : Nat) (req : RequestInfo) :
    ServeOutcome :=
  let language := get_user_language db st req
  let root_pages := db.pages.filter (fun q => q.parent == some selfId && q.live)
  let candidates := db.items.filter (fun it =>
    (match it.page with
     | some pg => root_pages.any (fun q => q.id == pg)
     | none => false)
    && (match language with
        | some l => it.language == l.id
        | none => false))
  match candidates with
  | [it] =>
    match it.page with
    | some pg => ServeOutcome.redirect pg
    | none => ServeOutcome.uncaught ExcClass.attributeError
  | [] =>
    if catches ExcClass.translatablePageDoesNotExist
        ExcClass.translatablePageItemDoesNotExist
    then ServeOutcome.http404
    else ServeOutcome.uncaught ExcClass.translatablePageItemDoesNotExist
  | _ =>
    if catches ExcClass.translatablePageDoesNotExist
        ExcClass.multipleObjectsReturned
    then ServeOutcome.http404
    else ServeOutcome.uncaught ExcClass.multipleObjectsReturned

/-- The spec's chained-translation invariant (spec section 3): whenever an
item records `canonical_page = some c`, no item records the page `c` itself
as a translation (i.e. with a set `canonical_page`). -/
def chainFreeBool (db : DB) : Bool :=
  db.items.all (fun i =>
    match i.canonical_page with
    | none => true
    | some c =>
      db.items.all (fun j => !(j.page == some c && j.canonical_page.isSome)))

/-- Database hygiene: every existing page id and every page id referenced
from the item table is below the host framework's next free id. -/
def dbFresh (db : DB) : Bool :=
  db.pages.all (fun q => q.id < db.nextId) &&
  db.items.all (fun it =>
    (match it.page with | some pg => pg < db.nextId | none => true) &&
    (match it.canonical_page with | some c => c < db.nextId | none => true))

/-- The number of translation items registered for a canonical page in a
given language. -/
def countItems (db : DB) (pid : Nat) (lid : Nat) : Nat :=
  (db.items.filter (fun it => it.canonical_page == some pid && it.language == lid)).length

/-- A page record with its host-tree position erased; move operations change
only this erased component. -/
def stripParent (p : TranslatablePage) : TranslatablePage :=
  { p with parent := none }

/-! ### Concrete scenario databases used by counterexamples and witnesses -/

/-- Global-mode settings with tree sync enabled. -/
def stG : Settings := { sync_tree := true, languages_per_site := false }

/-- The default, live language `en`. -/
def enL : Language :=
  { id := 0, code := "en", is_default := true, position := 0, live := true }

/-- A live, non-default language `fr`. -/
def frL : Language :=
  { id := 1, code := "fr", is_default := false, position := 1, live := true }

/-- A live, non-default language `de`. -/
def deL : Language :=
  { id := 2, code := "de", is_default := false, position := 2, live := true }

/-- A NON-live, non-default language `fr`. -/
def frDead : Language :=
  { id := 1, code := "fr", is_default := false, position := 1, live := false }

/-- Serve scenario: a site root (page 0) whose only live child (page 1) is
registered for language `fr`, while the site default is `en`. -/
def dbC2 : DB :=
  { languages := [enL, frL],
    pages := [{ id := 0, slug := "root", title := "r", live := true,
                parent := none, canonical_page := none, language := 0 },
              { id := 1, slug := "h", title := "h", live := true,
                parent := some 0, canonical_page := none, language := 1 }],
    items := [{ page := some 1, canonical_page := none, language := 1 }],
    sites := [{ id := 0, root_page := 0 }],
    site_languages := [], nextId := 2 }

/-- Create-propagation scenario: one canonical default-language page (page 1,
slug `home`) under a site root, and one NON-live non-default language. -/
def dbC3 : DB :=
  { languages := [enL, frDead],
    pages := [{ id := 0, slug := "root", title := "r", live := true,
                parent := none, canonical_page := none, language := 0 },
              { id := 1, slug := "home", title := "home", live := true,
                parent := some 0, canonical_page := none, language := 0 }],
    items := [{ page := some 1, canonical_page := none, language := 0 }],
    sites := [{ id := 0, root_page := 0 }],
    site_languages := [], nextId := 2 }

/-- Chain scenario: page 0 is canonical (language `en`), page 1 is its
registered `fr` translation.  Calling `create_translation` on page 1 — a
non-canonical node — is then possible for `de`. -/
def dbC9 : DB :=
  { languages := [enL, frL, deL],
    pages := [{ id := 0, slug := "a", title := "a", live := true,
                parent := none, canonical_page := none, language := 0 },
              { id := 1, slug := "b", title := "b", live := false,
                parent := some 0, canonical_page := some 0, language := 1 }],
    items := [{ page := some 0, canonical_page := none, language := 0 },
              { page := some 1, canonical_page := some 0, language := 1 }],
    sites := [], site_languages := [], nextId := 2 }

/-- The canonical (en) page of `dbC1`/`dbC8` that gets moved (page 3). -/
def pMen : TranslatablePage :=
  { id := 3, slug := "m", title := "m", live := true, parent := some 0,
    canonical_page := none, language := 0 }

/-- The `fr` translation (page 4) of the moved page in `dbC1`/`dbC8`. -/
def pMfr : TranslatablePage :=
  { id := 4, slug := "m-fr", title := "m", live := true, parent := some 0,
    canonical_page := some 3, language := 1 }

/-- Move scenario: canonical target page 1 with `fr` mirror page 2; canonical
page 3 (with `fr` translation page 4) is moved under page 1. -/
def dbC1 : DB :=
  { languages := [enL, frL],
    pages := [{ id := 0, slug := "root", title := "r", live := true,
                parent := none, canonical_page := none, language := 0 },
              { id := 1, slug := "t", title := "t", live := true,
                parent := some 0, canonical_page := none, language := 0 },
              { id := 2, slug := "t-fr", title := "t", live := true,
                parent := some 0, canonical_page := some 1, language := 1 },
              pMen, pMfr],
    items := [{ page := some 3, canonical_page := none, language := 0 },
              { page := some 4, canonical_page := some 3, language := 1 }],
    sites := [], site_languages := [], nextId := 5 }

/-- Like `dbC1` but the target has no `fr` mirror: the mirror trees are out
of sync before the move. -/
def dbC8 : DB :=
  { languages := [enL, frL],
    pages := [{ id := 0, slug := "root", title := "r", live := true,
                parent := none, canonical_page := none, language := 0 },
              { id := 1, slug := "t", title := "t", live := true,
                parent := some 0, canonical_page := none, language := 0 },
              pMen, pMfr],
    items := [{ page := some 3, canonical_page := none, language := 0 },
              { page := some 4, canonical_page := some 3, language := 1 }],
    sites := [], site_languages := [], nextId := 5 }

/-- A canonical page whose two translations sit in table order `fr` before
`de` while their language positions order them `de` before `fr`. -/
def pA : TranslatablePage :=
  { id := 0, slug := "a", title := "a", live := true, parent := none,
    canonical_page := none, language := 0 }

/-- Translation-query scenario: `fr` has position 2 and `de` position 1, but
the `fr` page (page 1) precedes the `de` page (page 2) in the table. -/
def dbC4 : DB :=
  { languages := [enL,
                  { id := 1, code := "fr", is_default := false, position := 2, live := true },
                  { id := 2, code := "de", is_default := false, position := 1, live := true }],
    pages := [pA,
              { id := 1, slug := "b", title := "b", live := true,
                parent := none, canonical_page := some 0, language := 1 },
              { id := 2, slug := "d", title := "d", live := true,
                parent := none, canonical_page := some 0, language := 2 }],
    items := [], sites := [], site_languages := [], nextId := 3 }

/-- Deletion scenario: canonical page 1 has mirror pages 2 and 3; page 4 is
unrelated. -/
def dbC7 : DB :=
  { languages := [enL, frL],
    pages := [{ id := 1, slug := "c", title := "c", live := true,
                parent := none, canonical_page := none, language := 0 },
              { id := 2, slug := "c-fr", title := "c", live := true,
                parent := none, canonical_page := some 1, language := 1 },
              { id := 3, slug := "c-de", title := "c", live := true,
                parent := none, canonical_page := some 1, language := 1 },
              { id := 4, slug := "x", title := "x", live := true,
                parent := none, canonical_page := none, language := 0 }],
    items := [], sites := [], site_languages := [], nextId := 5 }

/-- The record of page 1 in `dbC7`. -/
def pgC7 : TranslatablePage :=
  { id := 1, slug := "c", title := "c", live := true, parent := none,
    canonical_page := none, language := 0 }

/-! ### General list helpers -/

/-- Composing two successive filters into one conjunctive filter. -/
theorem filter_filter_comb {α : Type} (p q : α → Bool) (l : List α) :
    (l.filter p).filter q = l.filter (fun a => p a && q a) := by
  induction l with
  | nil => rfl
  | cons x xs ih =>
    by_cases hp : p x <;> by_cases hq : q x <;>
      simp [List.filter_cons, hp, hq, ih]

/-- Mapping a row-updating function under a filter that rejects every row
the function changes leaves the filter output unchanged. -/
theorem filter_map_u (u : TranslatablePage → TranslatablePage)
    (P : TranslatablePage → Bool)
    (h : ∀ q, u q = q ∨ (P q = false ∧ P (u q) = false)) :
    ∀ l : List TranslatablePage, (l.map u).filter P = l.filter P := by
  intro l
  induction l with
  | nil => rfl
  | cons x xs ih =>
    rcases h x with hx | ⟨hx1, hx2⟩
    · simp only [List.map_cons, List.filter_cons, hx, ih]
    · simp only [List.map_cons, List.filter_cons, hx1, hx2, ih, Bool.false_eq_true,
        if_false]

/-- `find?` skips a prefix on which the predicate is everywhere false. -/
theorem find?_append_right {α : Type} (p : α → Bool) (l₁ l₂ : List α)
    (h : ∀ a ∈ l₁, p a = false) : (l₁ ++ l₂).find? p = l₂.find? p := by
  induction l₁ with
  | nil => rfl
  | cons x xs ih =>
    have hx : p x = false := h x (List.mem_cons_self x xs)
    simp only [List.cons_append, List.find?_cons, hx]
    exact ih (fun a ha => h a (List.mem_cons_of_mem x ha))

/-- `get_translation_parent` never raises the conflict exception. -/
theorem get_translation_parent_ne_conflict (db : DB) (pid lid : Nat) :
    get_translation_parent db pid lid ≠ .error .conflict := by
  unfold get_translation_parent
  split
  · intro h
    injection h with h2
    exact CTError.noConfusion h2
  · split
    · intro h; exact Except.noConfusion h
    · split <;> intro h <;> exact Except.noConfusion h

/-- `hostCopy` never raises the conflict exception. -/
theorem hostCopy_ne_conflict (db : DB) (p : TranslatablePage) (slug : String)
    (toArg : Option TPParent) :
    hostCopy db p slug toArg ≠ .error .conflict := by
  unfold hostCopy
  split <;> intro h <;>
    first
      | (injection h with h2; exact CTError.noConfusion h2)
      | simp at h

/-- `hostAddChild` never raises the conflict exception. -/
theorem hostAddChild_ne_conflict (db : DB) (p : TranslatablePage)
    (slug : String) (pp : Nat) :
    hostAddChild db p slug pp ≠ .error .conflict := by
  unfold hostAddChild
  split <;> intro h <;>
    first
      | (injection h with h2; exact CTError.noConfusion h2)
      | simp at h

/-- The final item-registration step of `create_translation` turns only a
conflict error of its argument into a conflict error. -/
theorem match_wrap_conflict {pid lid : Nat} {r : Except CTError (Nat × DB)}
    (h : ((match r with
          | Except.error e => Except.error e
          | Except.ok (newId, db1) =>
            Except.ok (newId, { db1 with items := db1.items ++ [{ page := some newId, canonical_page := some pid, language := lid }] })) : Except CTError (Nat × DB))
         = Except.error CTError.conflict) :
    r = Except.error CTError.conflict := by
  cases r with
  | error e => exact h
  | ok pr =>
    obtain ⟨n1, d1⟩ := pr
    exact Except.noConfusion h

/-- Shape of a successful `hostCopy`: a single fresh unpublished page row
with the requested slug is appended and nothing else changes. -/
theorem hostCopy_ok_shape (db : DB) (p : TranslatablePage) (slug : String)
    (toArg : Option TPParent) (nid : Nat) (db1 : DB)
    (h : hostCopy db p slug toArg = .ok (nid, db1)) :
    nid = db.nextId ∧ db1.languages = db.languages ∧ db1.items = db.items ∧
    db1.nextId = db.nextId + 1 ∧
    ∃ np : TranslatablePage, db1.pages = db.pages ++ [np] ∧
      np.id = db.nextId ∧ np.live = false ∧ np.slug = slug := by
  unfold hostCopy at h
  split at h
  all_goals
    first
      | exact Except.noConfusion h
      | (injection h with h2
         injection h2 with hn hdb
         subst hn
         subst hdb
         exact ⟨rfl, rfl, rfl, rfl, _, rfl, rfl, rfl, rfl⟩)

/-- Shape of a successful `hostAddChild`: a single fresh unpublished page
row with the requested slug is appended and nothing else changes. -/
theorem hostAddChild_ok_shape (db : DB) (p : TranslatablePage) (slug : String)
    (pp : Nat) (nid : Nat) (db1 : DB)
    (h : hostAddChild db p slug pp = .ok (nid, db1)) :
    nid = db.nextId ∧ db1.languages = db.languages ∧ db1.items = db.items ∧
    db1.nextId = db.nextId + 1 ∧
    ∃ np : TranslatablePage, db1.pages = db.pages ++ [np] ∧
      np.id = db.nextId ∧ np.live = false ∧ np.slug = slug := by
  unfold hostAddChild at h
  split at h
  · exact Except.noConfusion h
  · injection h with h2
    injection h2 with hn hdb
    subst hn
    subst hdb
    exact ⟨rfl, rfl, rfl, rfl, _, rfl, rfl, rfl, rfl⟩

/-- Shape of a successful `create_translation`: the returned id is the fresh
page id; exactly one page row (unpublished, with the computed slug) and
exactly one translation item (registering the new page as the `lg`
translation of `pid`) are appended; the language table is untouched. -/
theorem create_translation_ok_shape (db : DB) (pid : Nat) (lg : Language)
    (cf : Bool) (parent : Option Nat) (n : Nat) (db' : DB)
    (h : create_translation db pid lg cf parent = .ok (n, db')) :
    n = db.nextId ∧
    db'.languages = db.languages ∧
    db'.nextId = db.nextId + 1 ∧
    (∃ p0, findPage db pid = some p0) ∧
    db'.items = db.items ++ [{ page := some db.nextId, canonical_page := some pid, language := lg.id }] ∧
    ∃ np : TranslatablePage, db'.pages = db.pages ++ [np] ∧ np.id = db.nextId ∧ np.live = false ∧
      ∀ p0 sl, findPage db pid = some p0 → mixinLanguage db pid = some sl →
        np.slug = (if p0.slug == sl.code then lg.code else p0.slug ++ "-" ++ lg.code) := by
  unfold create_translation at h
  cases hht : has_translation db pid lg.id with
  | true =>
    rw [hht] at h
    rw [if_pos rfl] at h
    exact Except.noConfusion h
  | false =>
    rw [hht] at h
    rw [if_neg Bool.false_ne_true] at h
    cases hfp : findPage db pid with
    | none =>
      rw [hfp] at h
      exact Except.noConfusion h
    | some p =>
      rw [hfp] at h
      cases hpar : (match parent with
                    | some pp => Except.ok (TPParent.page pp)
                    | none => get_translation_parent db pid lg.id) with
      | error e =>
        rw [hpar] at h
        exact Except.noConfusion h
      | ok parentRes =>
        rw [hpar] at h
        cases hml : mixinLanguage db pid with
        | none =>
          rw [hml] at h
          exact Except.noConfusion h
        | some selfLang =>
          rw [hml] at h
          simp only [] at h
          cases cf with
          | true =>
            rw [if_pos rfl] at h
            cases hhc : hostCopy db p
                (if p.slug == selfLang.code then lg.code
                 else p.slug ++ "-" ++ lg.code)
                (if tpParentEqOpt parentRes p.parent then none
                 else some parentRes) with
            | error e =>
              rw [hhc] at h
              exact Except.noConfusion h
            | ok r =>
              obtain ⟨nid, db1⟩ := r
              rw [hhc] at h
              have h2 : Except.ok ((nid, { db1 with items := db1.items ++ [{ page := some nid, canonical_page := some pid, language := lg.id }] }) : Nat × DB) = Except.ok (n, db') := h
              injection h2 with h3
              injection h3 with hn hdb
              obtain ⟨hnid, hlang, hitems, hnext, np, hpages, hnp1, hnp2, hnp3⟩ :=
                hostCopy_ok_shape db p _ _ nid db1 hhc
              subst hn
              subst hnid
              refine ⟨rfl, ?_, ?_, ⟨p, rfl⟩, ?_, np, ?_, hnp1, hnp2, ?_⟩
              · rw [← hdb]; exact hlang
              · rw [← hdb]; exact hnext
              · rw [← hdb]; show db1.items ++ _ = _; rw [hitems]
              · rw [← hdb]; exact hpages
              · intro p0 sl h1 h2
                injection h1 with h1
                injection h2 with h2
                rw [← h1, ← h2]
                exact hnp3
          | false =>
            rw [if_neg Bool.false_ne_true] at h
            cases parentRes with
            | item it => exact Except.noConfusion h
            | nil => exact Except.noConfusion h
            | page pp =>
              simp only [] at h
              cases hhc : hostAddChild db p
                  (if p.slug == selfLang.code then lg.code
                   else p.slug ++ "-" ++ lg.code) pp with
              | error e =>
                rw [hhc] at h
                exact Except.noConfusion h
              | ok r =>
                obtain ⟨nid, db1⟩ := r
                rw [hhc] at h
                have h2 : Except.ok ((nid, { db1 with items := db1.items ++ [{ page := some nid, canonical_page := some pid, language := lg.id }] }) : Nat × DB) = Except.ok (n, db') := h
                injection h2 with h3
                injection h3 with hn hdb
                obtain ⟨hnid, hlang, hitems, hnext, np, hpages, hnp1, hnp2, hnp3⟩ :=
                  hostAddChild_ok_shape db p _ pp nid db1 hhc
                subst hn
                subst hnid
                refine ⟨rfl, ?_, ?_, ⟨p, rfl⟩, ?_, np, ?_, hnp1, hnp2, ?_⟩
                · rw [← hdb]; exact hlang
                · rw [← hdb]; exact hnext
                · rw [← hdb]; show db1.items ++ _ = _; rw [hitems]
                · rw [← hdb]; exact hpages
                · intro p0 sl h1 h2
                  injection h1 with h1
                  injection h2 with h2
                  rw [← h1, ← h2]
                  exact hnp3

/-! ### Claim theorems -/

/-- C2: the claim says `serve` redirects when exactly one live child of the
site root carries a translation item in the resolved language, and raises
`NotFound` (HTTP 404) when no such child exists.  The redirect half holds,
but on the empty case the code raises `TranslatablePageItem.DoesNotExist`
from `candidates.get()`, which the `except TranslatablePage.DoesNotExist`
clause does not catch (distinct exception classes), so the exception
escapes instead of becoming `Http404` — contradicting the method's own
docstring (":return: Http302 or Http404"). -/
theorem C2_serve_wrong_exception_class :
    serve dbC2 stG 0 { language_code := none, site := 0 } =
      ServeOutcome.uncaught ExcClass.translatablePageItemDoesNotExist ∧
    serve dbC2 stG 0 { language_code := none, site := 0 } ≠
      ServeOutcome.http404 ∧
    serve dbC2 stG 0 { language_code := some "fr", site := 0 } =
      ServeOutcome.redirect 1 := by
  refine ⟨rfl, ?_, rfl⟩
  intro h
  have h0 : serve dbC2 stG 0 { language_code := none, site := 0 } =
      ServeOutcome.uncaught ExcClass.translatablePageItemDoesNotExist := rfl
  rw [h0] at h
  exact ServeOutcome.noConfusion h

/-- C4: the claim says `get_translations` resolves the canonical id, returns
the nodes sharing it, excludes the node itself, filters live nodes, and
returns them ordered by language position.  The membership parts hold, but
the queryset has no `order_by` (while the method's docstring claims "all
pages are sorted by the language position"): here the two translations come
back in table order — languages `fr` (position 2) then `de` (position 1) —
which is not ordered by position. -/
theorem C4_get_translations_not_position_ordered :
    (get_translations dbC4 pA false false).map (fun q => q.id) = [1, 2] ∧
    (get_translations dbC4 pA false false).map (fun q => q.language) = [1, 2] ∧
    (findLanguage dbC4 1).map (fun l => l.position) = some 2 ∧
    (findLanguage dbC4 2).map (fun l => l.position) = some 1 :=
  ⟨rfl, rfl, rfl, rfl⟩

/-- C5: `create_translation` fails with the conflict exception ("Translation
already exists") exactly when `has_translation` already holds for the source
page and target language; the conflict is raised before anything is created,
so the error result carries no new page row and no new translation item. -/
theorem C5_conflict_iff_has_translation (db : DB) (pid : Nat) (lg : Language)
    (cf : Bool) (parent : Option Nat) :
    (create_translation db pid lg cf parent = .error .conflict) ↔
      has_translation db pid lg.id = true := by
  constructor
  · intro h
    by_contra hneg
    have hht : has_translation db pid lg.id = false := by
      cases hh : has_translation db pid lg.id
      · rfl
      · exact absurd hh hneg
    unfold create_translation at h
    rw [hht] at h
    simp only [Bool.false_eq_true, if_false] at h
    cases hfp : findPage db pid with
    | none =>
      rw [hfp] at h
      injection h with h2
      exact CTError.noConfusion h2
    | some p =>
      rw [hfp] at h
      cases hpar : (match parent with
                    | some pp => Except.ok (TPParent.page pp)
                    | none => get_translation_parent db pid lg.id) with
      | error e =>
        rw [hpar] at h
        injection h with h2
        subst h2
        cases parent with
        | some pp => exact Except.noConfusion hpar
        | none => exact get_translation_parent_ne_conflict db pid lg.id hpar
      | ok parentRes =>
        rw [hpar] at h
        cases hml : mixinLanguage db pid with
        | none =>
          rw [hml] at h
          injection h with h2
          exact CTError.noConfusion h2
        | some selfLang =>
          rw [hml] at h
          have hbig := match_wrap_conflict h
          cases cf with
          | true =>
            rw [if_pos rfl] at hbig
            exact hostCopy_ne_conflict db p _ _ hbig
          | false =>
            rw [if_neg Bool.false_ne_true] at hbig
            cases parentRes with
            | page pp => exact hostAddChild_ne_conflict db p _ pp hbig
            | item it => exact CTError.noConfusion (Except.error.inj hbig)
            | nil => exact CTError.noConfusion (Except.error.inj hbig)
  · intro h
    unfold create_translation
    rw [h]
    simp only [if_true]

/-- C7: on the pre-delete hook, when tree sync is enabled and the instance
exists as a tracked `TranslatablePage` row, every page whose
`canonical_page` equals the deleted page is removed (and nothing else is
touched); when sync is disabled or the row is not tracked, the hook changes
nothing. -/
theorem C7_delete_cascade (db : DB) (pid : Nat) (st : Settings) :
    (st.sync_tree = true → ∀ pg, findPage db pid = some pg →
      synchronize_deletions db pid st =
        { db with pages := db.pages.filter (fun q => !(q.canonical_page == some pid)) }) ∧
    ((st.sync_tree = false ∨ findPage db pid = none) →
      synchronize_deletions db pid st = db) := by
  constructor
  · intro hs pg hpg
    have hid : pg.id = pid := by
      have h2 := List.find?_some hpg
      simpa using h2
    unfold synchronize_deletions
    rw [hpg]
    have hgoal : (if st.sync_tree = true then ({ db with pages := db.pages.filter (fun q => !(q.canonical_page == some pg.id)) } : DB) else db) = ({ db with pages := db.pages.filter (fun q => !(q.canonical_page == some pid)) } : DB) := by
      rw [if_pos hs, hid]
    exact hgoal
  · intro h
    rcases h with h | h
    · unfold synchronize_deletions
      split
      · rw [h]
        simp
      · rfl
    · unfold synchronize_deletions
      rw [h]

/-- Witness for C7: on `dbC7`, deleting tracked canonical page 1 with sync on
removes exactly the two mirror pages; deleting untracked id 9 changes
nothing. -/
theorem C7_delete_cascade_witness :
    synchronize_deletions dbC7 1 stG =
      { dbC7 with pages := dbC7.pages.filter (fun q => !(q.canonical_page == some 1)) } ∧
    synchronize_deletions dbC7 9 stG = dbC7 :=
  ⟨(C7_delete_cascade dbC7 1 stG).1 rfl pgC7 rfl,
   (C7_delete_cascade dbC7 9 stG).2 (Or.inr rfl)⟩

/-- The canonical page 0 of `dbC9` as a record. -/
def pa9 : TranslatablePage :=
  { id := 0, slug := "a", title := "a", live := true, parent := none,
    canonical_page := none, language := 0 }

/-- The state `create_translation dbC9 0 deL false (some 0)` produces: a new
unpublished page 2 with slug `a-de`, registered as the `de` translation of
canonical page 0. -/
def dbNewA : DB :=
  { languages := [enL, frL, deL],
    pages := [pa9,
              { id := 1, slug := "b", title := "b", live := false,
                parent := some 0, canonical_page := some 0, language := 1 },
              { id := 2, slug := "a-de", title := "a", live := false,
                parent := some 0, canonical_page := none, language := 0 }],
    items := [{ page := some 0, canonical_page := none, language := 0 },
              { page := some 1, canonical_page := some 0, language := 1 },
              { page := some 2, canonical_page := some 0, language := 2 }],
    sites := [], site_languages := [], nextId := 3 }

/-- The state `create_translation dbC9 1 deL false (some 0)` produces: the
new item registers page 2 as a translation of page 1, which is itself a
registered translation of page 0 — a chained translation. -/
def dbC9chain : DB :=
  { languages := [enL, frL, deL],
    pages := [pa9,
              { id := 1, slug := "b", title := "b", live := false,
                parent := some 0, canonical_page := some 0, language := 1 },
              { id := 2, slug := "b-de", title := "b", live := false,
                parent := some 0, canonical_page := none, language := 0 }],
    items := [{ page := some 0, canonical_page := none, language := 0 },
              { page := some 1, canonical_page := some 0, language := 1 },
              { page := some 2, canonical_page := some 1, language := 2 }],
    sites := [], site_languages := [], nextId := 3 }

/-- The state `synchronize_trees dbC3 1 true stG` produces: the non-live
language `fr` received a copied translation page. -/
def dbC3res : DB :=
  { languages := [enL, frDead],
    pages := [{ id := 0, slug := "root", title := "r", live := true,
                parent := none, canonical_page := none, language := 0 },
              { id := 1, slug := "home", title := "home", live := true,
                parent := some 0, canonical_page := none, language := 0 },
              { id := 2, slug := "home-fr", title := "home", live := false,
                parent := some 0, canonical_page := none, language := 0 }],
    items := [{ page := some 1, canonical_page := none, language := 0 },
              { page := some 2, canonical_page := some 1, language := 1 }],
    sites := [{ id := 0, root_page := 0 }],
    site_languages := [], nextId := 3 }

/-- The site of `dbC3`. -/
def siteC3 : Site := { id := 0, root_page := 0 }

/-- C6: the slug of the page created by `create_translation` is the target
language's code when the source's slug equals the source language's code,
and `sourceSlug ++ "-" ++ languageCode` otherwise (models.py lines
221-224). -/
theorem C6_translation_slug (db : DB) (pid : Nat) (lg : Language) (cf : Bool)
    (parent : Option Nat) (n : Nat) (db' : DB) (p : TranslatablePage)
    (sl : Language)
    (hfresh : db.pages.all (fun q => q.id < db.nextId) = true)
    (hp : findPage db pid = some p) (hsl : mixinLanguage db pid = some sl)
    (h : create_translation db pid lg cf parent = .ok (n, db')) :
    (findPage db' n).map (fun q => q.slug) =
      some (if p.slug == sl.code then lg.code else p.slug ++ "-" ++ lg.code) := by
  obtain ⟨hn, -, -, -, -, np, hpages, hid, -, hslug⟩ :=
    create_translation_ok_shape db pid lg cf parent n db' h
  subst hn
  have hpref : ∀ a ∈ db.pages, (fun q => q.id == db.nextId) a = false := by
    intro a ha
    have h2 : a.id < db.nextId := of_decide_eq_true (List.all_eq_true.mp hfresh a ha)
    simp [Nat.ne_of_lt h2]
  unfold findPage
  rw [hpages, find?_append_right _ _ _ hpref]
  have hfind : List.find? (fun q => q.id == db.nextId) [np] = some np := by
    simp [List.find?_cons, hid]
  rw [hfind, Option.map_some']
  rw [hslug p sl hp hsl]

/-- Witness for C6: creating the `de` translation of page 0 (slug `a`,
language `en`) in `dbC9` yields slug `a-de`. -/
theorem C6_translation_slug_witness :
    (findPage dbNewA 2).map (fun q => q.slug) =
      some (if pa9.slug == enL.code then deL.code
            else pa9.slug ++ "-" ++ deL.code) :=
  C6_translation_slug dbC9 0 deL false (some 0) 2 dbNewA pa9 enL rfl rfl rfl rfl

/-- C10: every page returned by a successful `create_translation` is
unpublished — `update_attrs` always carries `live: False` (models.py line
229), on both the copy and the empty-child branch, whatever the source's
live state. -/
theorem C10_created_translation_not_live (db : DB) (pid : Nat) (lg : Language)
    (cf : Bool) (parent : Option Nat) (n : Nat) (db' : DB)
    (hfresh : db.pages.all (fun q => q.id < db.nextId) = true)
    (h : create_translation db pid lg cf parent = .ok (n, db')) :
    (findPage db' n).map (fun q => q.live) = some false := by
  obtain ⟨hn, -, -, -, -, np, hpages, hid, hlive, -⟩ :=
    create_translation_ok_shape db pid lg cf parent n db' h
  subst hn
  have hpref : ∀ a ∈ db.pages, (fun q => q.id == db.nextId) a = false := by
    intro a ha
    have h2 : a.id < db.nextId := of_decide_eq_true (List.all_eq_true.mp hfresh a ha)
    simp [Nat.ne_of_lt h2]
  unfold findPage
  rw [hpages, find?_append_right _ _ _ hpref]
  have hfind : List.find? (fun q => q.id == db.nextId) [np] = some np := by
    simp [List.find?_cons, hid]
  rw [hfind, Option.map_some', hlive]

/-- Witness for C10: the `de` translation created from the live page 0 of
`dbC9` is unpublished. -/
theorem C10_created_translation_not_live_witness :
    (findPage dbNewA 2).map (fun q => q.live) = some false :=
  C10_created_translation_not_live dbC9 0 deL false (some 0) 2 dbNewA rfl rfl

/-- C3 counterexample: the claim says translations are created for exactly
the live non-default languages and none for non-live languages.  But
`synchronize_trees` iterates `Language.objects.filter(is_default=False)`
with no `live` filter (signals.py line 31): in `dbC3` the language `fr` is
non-live, yet the create propagation registers a translation for it. -/
theorem C3_counterexample_nonlive_language_translated :
    (findLanguage dbC3 1).map (fun l => (l.is_default, l.live)) =
      some (false, false) ∧
    synchronize_trees dbC3 1 true stG = .ok dbC3res ∧
    countItems dbC3res 1 1 = 1 :=
  ⟨rfl, rfl, rfl⟩

/-- Each successful `create_translation` appends exactly one item for its
(canonical page, language) pair, so the per-language item count rises by one
for the target language and is unchanged for every other language. -/
theorem create_translation_countItems (db : DB) (pid : Nat) (lg : Language)
    (cf : Bool) (parent : Option Nat) (n : Nat) (db' : DB)
    (h : create_translation db pid lg cf parent = .ok (n, db')) (x : Nat) :
    countItems db' pid x = countItems db pid x + (if lg.id == x then 1 else 0) := by
  obtain ⟨-, -, -, -, hitems, -⟩ :=
    create_translation_ok_shape db pid lg cf parent n db' h
  unfold countItems
  rw [hitems, List.filter_append, List.length_append]
  congr 1
  by_cases hx : lg.id == x
  · simp [List.filter_cons, hx]
  · simp [List.filter_cons, hx]

/-- Walking the non-default-language loop of `synchronize_trees` from a
state with no items for the page: each listed language ends with exactly one
item, and languages outside the list keep their count. -/
theorem syncLangLoop_counts (pid : Nat) :
    ∀ (ls : List Language) (cur db' : DB),
      (ls.map (fun l => l.id)).Nodup →
      (∀ lg ∈ ls, countItems cur pid lg.id = 0) →
      syncLangLoop pid cur ls = .ok db' →
      (∀ lg ∈ ls, countItems db' pid lg.id = 1) ∧
      (∀ x, x ∉ ls.map (fun l => l.id) →
        countItems db' pid x = countItems cur pid x) := by
  intro ls
  induction ls with
  | nil =>
    intro cur db' _ _ hloop
    have h1 : (Except.ok cur : Except CTError DB) = Except.ok db' := hloop
    injection h1 with h1
    subst h1
    exact ⟨fun lg hlg => absurd hlg (List.not_mem_nil lg), fun x _ => rfl⟩
  | cons lg ls ih =>
    intro cur db' hnodup hzero hloop
    simp only [syncLangLoop] at hloop
    cases hct : create_translation cur pid lg true none with
    | error e =>
      rw [hct] at hloop
      exact Except.noConfusion hloop
    | ok r =>
      rw [hct] at hloop
      obtain ⟨nid, c1⟩ := r
      have hcount := create_translation_countItems cur pid lg true none nid c1 hct
      rw [List.map_cons, List.nodup_cons] at hnodup
      obtain ⟨hnotmem, hnd2⟩ := hnodup
      have hzero_tail : ∀ lg' ∈ ls, countItems c1 pid lg'.id = 0 := by
        intro lg' hlg'
        rw [hcount lg'.id]
        have hne : (lg.id == lg'.id) = false := by
          refine beq_eq_false_iff_ne.mpr ?_
          intro heq
          exact hnotmem (heq ▸ List.mem_map_of_mem (fun l => l.id) hlg')
        rw [hne, hzero lg' (List.mem_cons_of_mem lg hlg')]
        simp

      obtain ⟨ih1, ih2⟩ := ih c1 db' hnd2 hzero_tail hloop
      constructor
      · intro t ht
        rcases List.mem_cons.mp ht with heq | ht2
        · subst heq
          rw [ih2 t.id hnotmem, hcount t.id,
            hzero t (List.mem_cons_self t ls)]
          simp
        · exact ih1 t ht2
      · intro x hx
        rw [List.map_cons, List.mem_cons] at hx
        push_neg at hx
        obtain ⟨hx1, hx2⟩ := hx
        rw [ih2 x hx2, hcount x]
        have hne : (lg.id == x) = false :=
          beq_eq_false_iff_ne.mpr (fun e => hx1 e.symm)
        rw [hne]
        simp

/-- When all the guards of `synchronize_trees` pass (just-created page, sync
enabled, default-language page in a site), the handler is exactly the
per-language create loop. -/
theorem synchronize_trees_unfold (db : DB) (pid : Nat) (st : Settings)
    (l : Language) (s : Site)
    (hst : st.sync_tree = true) (hl : mixinLanguage db pid = some l)
    (hld : l.is_default = true) (hsite : get_site db pid = some s) :
    synchronize_trees db pid true st =
      syncLangLoop pid db (db.languages.filter (fun lg => !lg.is_default)) := by
  unfold synchronize_trees
  rw [hst, hl, hsite]
  simp [hld]

/-- C3 amended: on creation of a default-language node in a site (tree sync
enabled, no prior translation items for the node), a translation item is
registered for exactly the set of non-default languages — live or not: one
item per non-default language, none for the default. -/
theorem C3_amended_one_item_per_nondefault (db : DB) (pid : Nat)
    (st : Settings) (db' : DB) (l : Language) (s : Site)
    (hnodup : (db.languages.map (fun x => x.id)).Nodup)
    (hnoprior : db.items.all (fun it => !(it.canonical_page == some pid)) = true)
    (hst : st.sync_tree = true)
    (hl : mixinLanguage db pid = some l) (hld : l.is_default = true)
    (hsite : get_site db pid = some s)
    (h : synchronize_trees db pid true st = .ok db') :
    ∀ lg ∈ db.languages, countItems db' pid lg.id =
      (if lg.is_default then 0 else 1) := by
  rw [synchronize_trees_unfold db pid st l s hst hl hld hsite] at h
  have hzero : ∀ x, countItems db pid x = 0 := by
    intro x
    unfold countItems
    rw [List.length_eq_zero, List.filter_eq_nil_iff]
    intro a ha
    have h2 := List.all_eq_true.mp hnoprior a ha
    rw [Bool.not_eq_true'] at h2
    simp [h2]
  have hnd : ((db.languages.filter (fun lg => !lg.is_default)).map
      (fun l => l.id)).Nodup :=
    hnodup.sublist ((List.filter_sublist db.languages).map (fun l => l.id))
  obtain ⟨h1, h2⟩ := syncLangLoop_counts pid
    (db.languages.filter (fun lg => !lg.is_default)) db db' hnd
    (fun lg _ => hzero lg.id) h
  intro lg hlg
  by_cases hdefq : lg.is_default = true
  · rw [if_pos hdefq]
    have hnm : lg.id ∉ (db.languages.filter (fun lg => !lg.is_default)).map
        (fun l => l.id) := by
      intro hmem
      rw [List.mem_map] at hmem
      obtain ⟨lg', hlg', heq⟩ := hmem
      have hlg'2 := List.mem_filter.mp hlg'
      have heq2 : lg' = lg :=
        List.inj_on_of_nodup_map hnodup hlg'2.1 hlg heq
      rw [heq2, hdefq] at hlg'2
      simp at hlg'2
    rw [h2 lg.id hnm]
    exact hzero lg.id
  · rw [if_neg hdefq]
    refine h1 lg (List.mem_filter.mpr ⟨hlg, ?_⟩)
    simp [hdefq]

/-- Witness for the amended C3: in `dbC3` the non-live non-default language
`fr` ends with exactly one translation item for page 1. -/
theorem C3_amended_witness : countItems dbC3res 1 1 = 1 := by
  have h := C3_amended_one_item_per_nondefault dbC3 1 stG dbC3res enL siteC3
    (by decide) rfl rfl rfl rfl rfl rfl frDead (by decide)
  simpa [frDead] using h

/-- C9 counterexample: the claim says every `createTranslation` preserves
the depth-2 invariant (no chained translations).  But `create_translation`
never checks that its source is canonical: calling it on page 1 of `dbC9` —
itself a registered translation of page 0 — registers page 2 as a
translation of page 1, producing a chain. -/
theorem C9_counterexample_chain_created :
    chainFreeBool dbC9 = true ∧
    create_translation dbC9 1 deL false (some 0) = .ok (2, dbC9chain) ∧
    chainFreeBool dbC9chain = false :=
  ⟨rfl, rfl, rfl⟩

/-- C9 amended: `create_translation` preserves the no-chain invariant
provided its source page is not itself registered as a translation (no item
with `page = source` has a set `canonical_page`), in a reference-fresh
database. -/
theorem C9_amended_chain_free_preserved (db : DB) (pid : Nat) (lg : Language)
    (cf : Bool) (parent : Option Nat) (n : Nat) (db' : DB)
    (hchain : chainFreeBool db = true)
    (hsrc : db.items.all
      (fun it => !(it.page == some pid) || !it.canonical_page.isSome) = true)
    (hfresh : dbFresh db = true)
    (h : create_translation db pid lg cf parent = .ok (n, db')) :
    chainFreeBool db' = true := by
  obtain ⟨-, -, -, ⟨p0, hp0⟩, hitems, -⟩ :=
    create_translation_ok_shape db pid lg cf parent n db' h
  have hp0mem : p0 ∈ db.pages := List.mem_of_find?_eq_some hp0
  have hp0id : p0.id = pid := by simpa using List.find?_some hp0
  unfold dbFresh at hfresh
  rw [Bool.and_eq_true] at hfresh
  obtain ⟨hfp, hfi⟩ := hfresh
  have hpid_lt : pid < db.nextId := by
    have h2 := List.all_eq_true.mp hfp p0 hp0mem
    rw [hp0id] at h2
    exact of_decide_eq_true h2
  have hfi2 : ∀ it ∈ db.items, ∀ c, it.canonical_page = some c →
      c < db.nextId := by
    intro it hit c hc
    have h2 := List.all_eq_true.mp hfi it hit
    rw [Bool.and_eq_true] at h2
    have h3 := h2.2
    rw [hc] at h3
    exact of_decide_eq_true h3
  unfold chainFreeBool at hchain ⊢
  rw [hitems]
  rw [List.all_eq_true] at hchain ⊢
  intro i hi
  rcases List.mem_append.mp hi with hiold | hinew
  · cases hcan : i.canonical_page with
    | none => rfl
    | some c =>
      have hold := hchain i hiold
      rw [hcan] at hold
      show (db.items ++ _).all _ = true
      rw [List.all_eq_true] at hold ⊢
      intro j hj
      rcases List.mem_append.mp hj with hjold | hjnew
      · exact hold j hjold
      · rw [List.mem_singleton] at hjnew
        subst hjnew
        have hc_lt : c < db.nextId := hfi2 i hiold c hcan
        have hne : ((some db.nextId : Option Nat) == some c) = false := by
          refine beq_eq_false_iff_ne.mpr ?_
          intro heq
          injection heq with heq
          exact absurd heq.symm (Nat.ne_of_lt hc_lt)
        simp [hne]
  · rw [List.mem_singleton] at hinew
    subst hinew
    show (db.items ++ _).all _ = true
    rw [List.all_eq_true]
    intro j hj
    rcases List.mem_append.mp hj with hjold | hjnew
    · have h2 := List.all_eq_true.mp hsrc j hjold
      rw [Bool.or_eq_true] at h2
      rcases h2 with h2 | h2
      · rw [Bool.not_eq_true'] at h2
        simp [h2]
      · rw [Bool.not_eq_true'] at h2
        simp [h2]
    · rw [List.mem_singleton] at hjnew
      subst hjnew
      have hne : ((some db.nextId : Option Nat) == some pid) = false := by
        refine beq_eq_false_iff_ne.mpr ?_
        intro heq
        injection heq with heq
        rw [heq] at hpid_lt
        exact absurd rfl (Nat.ne_of_lt hpid_lt)
      simp [hne]

/-- Witness for the amended C9: creating the `de` translation of the
canonical page 0 of `dbC9` keeps the item table chain-free. -/
theorem C9_amended_witness : chainFreeBool dbNewA = true :=
  C9_amended_chain_free_preserved dbC9 0 deL false (some 0) 2 dbNewA
    rfl rfl rfl rfl

/-! ### Move propagation: parent-erasure invariants -/

/-- A host move only changes the erased tree position. -/
theorem strip_hostMove (pages : List TranslatablePage) (pid target : Nat) :
    (hostMovePage pages pid target).map stripParent =
      pages.map stripParent := by
  unfold hostMovePage
  rw [List.map_map]
  apply List.map_congr_left
  intro q _
  show stripParent (if q.id == pid then { q with parent := some target } else q)
    = stripParent q
  by_cases hq : (q.id == pid) = true
  · rw [if_pos hq]
    rfl
  · rw [if_neg hq]

/-- Parent-erased equal page tables have identical id sequences. -/
theorem map_id_of_strip {xs ys : List TranslatablePage}
    (h : xs.map stripParent = ys.map stripParent) :
    xs.map (fun q => q.id) = ys.map (fun q => q.id) := by
  have h2 := congrArg (List.map (fun q => q.id)) h
  rw [List.map_map, List.map_map] at h2
  exact h2

/-- A filter that ignores the tree position returns the same row ids on
parent-erased equal page tables. -/
theorem filter_map_id_of_strip (P : TranslatablePage → Bool)
    (hP : ∀ q, P (stripParent q) = P q) :
    ∀ (xs ys : List TranslatablePage),
      xs.map stripParent = ys.map stripParent →
      (xs.filter P).map (fun q => q.id) = (ys.filter P).map (fun q => q.id) := by
  intro xs
  induction xs with
  | nil =>
    intro ys h
    cases ys with
    | nil => rfl
    | cons y ys => exact List.noConfusion h
  | cons x xs ih =>
    intro ys h
    cases ys with
    | nil => exact List.noConfusion h
    | cons y ys =>
      rw [List.map_cons, List.map_cons] at h
      injection h with h1 h2
      have hPxy : P x = P y := by rw [← hP x, ← hP y, h1]
      have hid : x.id = y.id := congrArg (fun r => r.id) h1
      rw [List.filter_cons, List.filter_cons]
      by_cases hPx : P x = true
      · rw [if_pos hPx, if_pos (hPxy.symm.trans hPx)]
        rw [List.map_cons, List.map_cons, hid, ih ys h2]
      · rw [if_neg hPx, if_neg (fun hy => hPx (hPxy.trans hy))]
        exact ih ys h2

/-- `find?` by id through a host move: the found row is the moved row. -/
theorem findPage_hostMove (pages : List TranslatablePage) (pid target n : Nat) :
    (hostMovePage pages pid target).find? (fun q => q.id == n) =
      (pages.find? (fun q => q.id == n)).map
        (fun q => if q.id == pid then { q with parent := some target } else q) := by
  unfold hostMovePage
  induction pages with
  | nil => rfl
  | cons q qs ih =>
    have hidq : (if q.id == pid then ({ q with parent := some target } : TranslatablePage) else q).id = q.id := by
      by_cases hq : (q.id == pid) = true
      · rw [if_pos hq]
      · rw [if_neg hq]
    rw [List.map_cons]
    cases hn : (q.id == n) with
    | true =>
      have h1 : ((if q.id == pid then ({ q with parent := some target } : TranslatablePage) else q).id == n) = true := by
        rw [hidq]; exact hn
      simp only [List.find?_cons, h1, hn]
      rfl
    | false =>
      have h1 : ((if q.id == pid then ({ q with parent := some target } : TranslatablePage) else q).id == n) = false := by
        rw [hidq]; exact hn
      simp only [List.find?_cons, h1, hn]
      exact ih

/-- `mixinLanguage` only reads the item and language tables. -/
theorem mixinLanguage_congr {a b : DB} (hi : a.items = b.items)
    (hl : a.languages = b.languages) (pid : Nat) :
    mixinLanguage a pid = mixinLanguage b pid := by
  unfold mixinLanguage translatable_page_item findLanguage
  rw [hi, hl]

/-- Walking the translation-move loop from a state that differs from `db0`
only in tree positions: on success every listed translation ends up exactly
under the unique page matching its language against the canonical target,
no other page moves, and the non-position data is untouched. -/
theorem moveLoop_ok (st : Settings) (ct : Nat) (pos : Option Nat) (db0 : DB) :
    ∀ (ts : List TranslatablePage) (cur db' : DB),
      cur.pages.map stripParent = db0.pages.map stripParent →
      cur.items = db0.items →
      cur.languages = db0.languages →
      (ts.map (fun q => q.id)).Nodup →
      (∀ t ∈ ts, ∃ r ∈ db0.pages, r.id = t.id) →
      moveLoop st ct pos cur ts = .ok db' →
      db'.pages.map stripParent = db0.pages.map stripParent ∧
      db'.items = db0.items ∧
      db'.languages = db0.languages ∧
      (∀ t ∈ ts, ∃ tid,
        (db0.pages.filter (matchesMoveTarget ct t.language)).map (fun q => q.id) = [tid] ∧
        pageParent db' t.id = some tid) ∧
      (∀ n, n ∉ ts.map (fun q => q.id) → pageParent db' n = pageParent cur n) := by
  intro ts
  induction ts with
  | nil =>
    intro cur db' h1 h2 h3 _ _ hloop
    have he : (Except.ok cur : Except MoveError DB) = Except.ok db' := hloop
    injection he with he
    subst he
    exact ⟨h1, h2, h3, fun t ht => absurd ht (List.not_mem_nil t), fun n _ => rfl⟩
  | cons t ts ih =>
    intro cur db' h1 h2 h3 hnd hmem hloop
    simp only [moveLoop] at hloop
    cases hfilt : cur.pages.filter (matchesMoveTarget ct t.language) with
    | nil =>
      rw [hfilt] at hloop
      exact Except.noConfusion hloop
    | cons tgt rest =>
      cases rest with
      | cons b rest2 =>
        rw [hfilt] at hloop
        exact Except.noConfusion hloop
      | nil =>
        rw [hfilt] at hloop
        simp only [] at hloop
        cases hms : move_suppressed cur t.id tgt.id pos st with
        | error e =>
          rw [hms] at hloop
          exact Except.noConfusion hloop
        | ok nxt =>
          rw [hms] at hloop
          have hnxt : nxt = { cur with pages := hostMovePage cur.pages t.id tgt.id } := by
            simp only [move_suppressed] at hms
            cases hcd : computeIsDefault { cur with pages := hostMovePage cur.pages t.id tgt.id } t.id st with
            | error e =>
              rw [hcd] at hms
              exact Except.noConfusion hms
            | ok bv =>
              rw [hcd] at hms
              injection hms with hms
              exact hms.symm
          subst hnxt
          rw [List.map_cons, List.nodup_cons] at hnd
          obtain ⟨hnotmem, hnd2⟩ := hnd
          have hmem2 : ∀ u ∈ ts, ∃ r ∈ db0.pages, r.id = u.id :=
            fun u hu => hmem u (List.mem_cons_of_mem t hu)
          have hstrip2 : ({ cur with pages := hostMovePage cur.pages t.id tgt.id } : DB).pages.map stripParent = db0.pages.map stripParent := by
            show (hostMovePage cur.pages t.id tgt.id).map stripParent = _
            rw [strip_hostMove]
            exact h1
          obtain ⟨g1, g2, g3, g4, g5⟩ :=
            ih { cur with pages := hostMovePage cur.pages t.id tgt.id } db'
              hstrip2 h2 h3 hnd2 hmem2 hloop
          have hex : ∃ r', List.find? (fun q => q.id == t.id) cur.pages = some r' := by
            obtain ⟨r, hr, hrid⟩ := hmem t (List.mem_cons_self t ts)
            have hids : cur.pages.map (fun q => q.id) = db0.pages.map (fun q => q.id) :=
              map_id_of_strip h1
            have hin : t.id ∈ cur.pages.map (fun q => q.id) := by
              rw [hids]
              exact List.mem_map.mpr ⟨r, hr, hrid⟩
            obtain ⟨r', hr', hrid'⟩ := List.mem_map.mp hin
            cases hf : List.find? (fun q => q.id == t.id) cur.pages with
            | some rr => exact ⟨rr, rfl⟩
            | none =>
              have hnone := List.find?_eq_none.mp hf r' hr'
              exact absurd (by simp [hrid']) hnone
          obtain ⟨r', hf⟩ := hex
          have hid' : (r'.id == t.id) = true := by
            simpa using List.find?_some hf
          have hpp : pageParent { cur with pages := hostMovePage cur.pages t.id tgt.id } t.id = some tgt.id := by
            have hfp2 : findPage { cur with pages := hostMovePage cur.pages t.id tgt.id } t.id = some ({ r' with parent := some tgt.id }) := by
              show (hostMovePage cur.pages t.id tgt.id).find? (fun q => q.id == t.id) = _
              rw [findPage_hostMove, hf, Option.map_some', if_pos hid']
            unfold pageParent
            rw [hfp2]
          have huntouched : ∀ n, n ≠ t.id →
              pageParent { cur with pages := hostMovePage cur.pages t.id tgt.id } n = pageParent cur n := by
            intro n hne
            unfold pageParent findPage
            simp only []
            rw [findPage_hostMove]
            cases hf2 : cur.pages.find? (fun q => q.id == n) with
            | none => rfl
            | some r2 =>
              have hr2' : r2.id = n := by simpa using List.find?_some hf2
              have hner : (r2.id == t.id) = false := by
                refine beq_eq_false_iff_ne.mpr ?_
                rw [hr2']
                exact hne
              simp only [Option.map_some']
              rw [if_neg (by rw [hner]; exact Bool.false_ne_true)]
          refine ⟨g1, g2, g3, ?_, ?_⟩
          · intro u hu
            rcases List.mem_cons.mp hu with heq | hu2
            · subst heq
              refine ⟨tgt.id, ?_, ?_⟩
              · have hflt := filter_map_id_of_strip
                  (matchesMoveTarget ct u.language) (fun q => rfl)
                  cur.pages db0.pages h1
                rw [hfilt] at hflt
                exact hflt.symm
              · rw [g5 u.id hnotmem]
                exact hpp
            · exact g4 u hu2
          · intro n hn
            rw [List.map_cons, List.mem_cons] at hn
            push_neg at hn
            rw [g5 n hn.2]
            exact huntouched n hn.1

/-- `get_translations(only_live=False)` of the just-moved page is the same
row list as before the move: the query reads only ids and canonical links,
and the moved page itself is excluded. -/
theorem get_translations_hostMove (db : DB) (pid target : Nat)
    (p : TranslatablePage) (hpid : p.id = pid) :
    get_translations { db with pages := hostMovePage db.pages pid target }
      { p with parent := some target } false false =
      get_translations db p false false := by
  unfold get_translations
  simp only [Bool.false_eq_true, if_false]
  rw [filter_filter_comb, filter_filter_comb]
  unfold hostMovePage
  apply filter_map_u
  intro q
  by_cases hq : (q.id == pid) = true
  · right
    have hqid : q.id = pid := by simpa using hq
    constructor
    · have hne : (q.id != p.id) = false := by simp [hqid, hpid]
      simp [hne]
    · rw [if_pos hq]
      have hne : (({ q with parent := some target } : TranslatablePage).id != p.id) = false := by
        show (q.id != p.id) = false
        simp [hqid, hpid]
      simp [hne]
  · left
    rw [if_neg hq]

/-- The canonical-target normalization only reads `canonical_page` links,
so a host move does not change it. -/
theorem resolveCanonicalTarget_hostMove (db : DB) (pid target ct0 : Nat) :
    resolveCanonicalTarget { db with pages := hostMovePage db.pages pid target } ct0 =
      resolveCanonicalTarget db ct0 := by
  unfold resolveCanonicalTarget findPage
  simp only []
  rw [findPage_hostMove]
  cases hf : db.pages.find? (fun q => q.id == ct0) with
  | none => rfl
  | some r =>
    simp only [Option.map_some']
    by_cases hq : (r.id == pid) = true
    · rw [if_pos hq]
    · rw [if_neg hq]

/-- C1: moving a canonical default-language page (tree sync on, global
language mode, `suppress_sync` unset) moves every one of its translations
(`get_translations(only_live=False)`) under the unique page of the
translation's language whose `canonical_page` is the normalized canonical
target or whose pk is that target; the suppressed recursive moves touch no
other page's position and leave the item and language tables unchanged. -/
theorem C1_move_propagates_translations (db : DB) (pid target : Nat)
    (st : Settings) (db' : DB) (p : TranslatablePage) (L : Language)
    (hnodup : (db.pages.map (fun q => q.id)).Nodup)
    (hsync : st.sync_tree = true) (hglobal : st.languages_per_site = false)
    (hp : findPage db pid = some p) (hcanon : p.canonical_page = none)
    (hL : mixinLanguage db pid = some L) (hdef : L.is_default = true)
    (hmv : move db pid target none false st = .ok db') :
    db'.items = db.items ∧
    db'.languages = db.languages ∧
    pageParent db' pid = some target ∧
    (∀ t ∈ get_translations db p false false, ∃ tid,
      (db.pages.filter (matchesMoveTarget (resolveCanonicalTarget db target) t.language)).map (fun q => q.id) = [tid] ∧
      pageParent db' t.id = some tid) ∧
    (∀ n, n ≠ pid → n ∉ (get_translations db p false false).map (fun q => q.id) →
      pageParent db' n = pageParent db n) := by
  have hpid : p.id = pid := by simpa using List.find?_some hp
  simp only [move] at hmv
  have hml1 : mixinLanguage { db with pages := hostMovePage db.pages pid target } pid = some L := by
    rw [mixinLanguage_congr rfl rfl pid]
    exact hL
  have hcd : computeIsDefault { db with pages := hostMovePage db.pages pid target } pid st = .ok true := by
    unfold computeIsDefault
    rw [if_neg (by rw [hglobal]; exact Bool.false_ne_true)]
    rw [hml1]
    simp [hdef]
  rw [hcd] at hmv
  simp only [hsync] at hmv
  simp [hsync] at hmv
  simp only [move_translated_pages] at hmv
  have hp' : db.pages.find? (fun q => q.id == pid) = some p := hp
  have hfp1 : findPage { db with pages := hostMovePage db.pages pid target } pid = some ({ p with parent := some target }) := by
    show (hostMovePage db.pages pid target).find? (fun q => q.id == pid) = _
    rw [findPage_hostMove, hp', Option.map_some', if_pos (by simp [hpid])]
  rw [hfp1] at hmv
  simp only [] at hmv
  rw [get_translations_hostMove db pid target p hpid] at hmv
  rw [resolveCanonicalTarget_hostMove db pid target target] at hmv
  have hts_sub : (get_translations db p false false).Sublist db.pages := by
    unfold get_translations
    simp only [Bool.false_eq_true, if_false]
    exact (List.filter_sublist _).trans (List.filter_sublist _)
  have hnd : ((get_translations db p false false).map (fun q => q.id)).Nodup :=
    hnodup.sublist (hts_sub.map (fun q => q.id))
  have hmem : ∀ t ∈ get_translations db p false false, ∃ r ∈ db.pages, r.id = t.id :=
    fun t ht => ⟨t, hts_sub.subset ht, rfl⟩
  have hstrip1 : ({ db with pages := hostMovePage db.pages pid target } : DB).pages.map stripParent = db.pages.map stripParent := by
    show (hostMovePage db.pages pid target).map stripParent = _
    exact strip_hostMove db.pages pid target
  obtain ⟨g1, g2, g3, g4, g5⟩ :=
    moveLoop_ok st (resolveCanonicalTarget db target) none db
      (get_translations db p false false)
      { db with pages := hostMovePage db.pages pid target } db'
      hstrip1 rfl rfl hnd hmem hmv
  have hpid_nin : pid ∉ (get_translations db p false false).map (fun q => q.id) := by
    intro hmem2
    obtain ⟨t, ht, htid⟩ := List.mem_map.mp hmem2
    unfold get_translations at ht
    simp only [Bool.false_eq_true, if_false] at ht
    have h2 := (List.mem_filter.mp ht).2
    simp [htid, hpid] at h2
  have hpp_self : pageParent { db with pages := hostMovePage db.pages pid target } pid = some target := by
    unfold pageParent
    rw [hfp1]
  have huntouched2 : ∀ n, n ≠ pid →
      pageParent { db with pages := hostMovePage db.pages pid target } n = pageParent db n := by
    intro n hne
    unfold pageParent findPage
    simp only []
    rw [findPage_hostMove]
    cases hf2 : db.pages.find? (fun q => q.id == n) with
    | none => rfl
    | some r2 =>
      have hr2' : r2.id = n := by simpa using List.find?_some hf2
      have hner : (r2.id == pid) = false := by
        refine beq_eq_false_iff_ne.mpr ?_
        rw [hr2']
        exact hne
      simp only [Option.map_some']
      rw [if_neg (by rw [hner]; exact Bool.false_ne_true)]
  refine ⟨g2, g3, ?_, g4, ?_⟩
  · rw [g5 pid hpid_nin]
    exact hpp_self
  · intro n hne hnin
    rw [g5 n hnin]
    exact huntouched2 n hne

/-- The state `move dbC1 3 1 none false stG` produces: the canonical page 3
sits under target 1 and its `fr` translation 4 under the `fr` mirror 2. -/
def dbC1res : DB :=
  { languages := [enL, frL],
    pages := [{ id := 0, slug := "root", title := "r", live := true,
                parent := none, canonical_page := none, language := 0 },
              { id := 1, slug := "t", title := "t", live := true,
                parent := some 0, canonical_page := none, language := 0 },
              { id := 2, slug := "t-fr", title := "t", live := true,
                parent := some 0, canonical_page := some 1, language := 1 },
              { id := 3, slug := "m", title := "m", live := true,
                parent := some 1, canonical_page := none, language := 0 },
              { id := 4, slug := "m-fr", title := "m", live := true,
                parent := some 2, canonical_page := some 3, language := 1 }],
    items := [{ page := some 3, canonical_page := none, language := 0 },
              { page := some 4, canonical_page := some 3, language := 1 }],
    sites := [], site_languages := [], nextId := 5 }

/-- Witness for C1: in `dbC1`, moving canonical page 3 under page 1 moves
its `fr` translation (page 4) under the `fr` mirror page 2. -/
theorem C1_move_propagates_translations_witness :
    pageParent dbC1res 4 = some 2 := by
  obtain ⟨-, -, -, h4, -⟩ :=
    C1_move_propagates_translations dbC1 3 1 stG dbC1res pMen enL
      (by decide) rfl rfl rfl rfl rfl rfl rfl
  obtain ⟨tid, hfil, hpar⟩ := h4 pMfr (by decide)
  have h2 : (dbC1.pages.filter (matchesMoveTarget (resolveCanonicalTarget dbC1 1) pMfr.language)).map (fun q => q.id) = [2] := by decide
  rw [h2] at hfil
  injection hfil with he1 he2
  rw [← he1] at hpar
  exact hpar

/-- Walking the translation-move loop when some listed translation has NO
page matching its language against the canonical target (and no language has
several): the loop raises `TranslatablePage.DoesNotExist` — the spec's
`SyncPreconditionError` — and no result state is produced. -/
theorem moveLoop_err (st : Settings) (ct : Nat) (pos : Option Nat) (db0 : DB)
    (hglobal : st.languages_per_site = false) :
    ∀ (ts : List TranslatablePage) (cur : DB),
      cur.pages.map stripParent = db0.pages.map stripParent →
      cur.items = db0.items →
      cur.languages = db0.languages →
      (∀ t ∈ ts, (mixinLanguage db0 t.id).isSome) →
      (∀ t ∈ ts, (db0.pages.filter (matchesMoveTarget ct t.language)).length ≤ 1) →
      (∃ t ∈ ts, db0.pages.filter (matchesMoveTarget ct t.language) = []) →
      moveLoop st ct pos cur ts = .error .doesNotExist := by
  intro ts
  induction ts with
  | nil =>
    intro cur _ _ _ _ _ hex
    obtain ⟨t, ht, -⟩ := hex
    exact absurd ht (List.not_mem_nil t)
  | cons t ts ih =>
    intro cur h1 h2 h3 hsome hlen hex
    simp only [moveLoop]
    have hfeq := filter_map_id_of_strip (matchesMoveTarget ct t.language)
      (fun q => rfl) cur.pages db0.pages h1
    have hlen_eq : (cur.pages.filter (matchesMoveTarget ct t.language)).length =
        (db0.pages.filter (matchesMoveTarget ct t.language)).length := by
      have h4 := congrArg List.length hfeq
      simpa using h4
    cases hfilt : cur.pages.filter (matchesMoveTarget ct t.language) with
    | nil => rfl
    | cons tgt rest =>
      cases rest with
      | cons b rest2 =>
        exfalso
        have hl1 := hlen t (List.mem_cons_self t ts)
        rw [← hlen_eq, hfilt] at hl1
        simp at hl1
      | nil =>
        simp only []
        have hcd : ∃ bv, computeIsDefault { cur with pages := hostMovePage cur.pages t.id tgt.id } t.id st = .ok bv := by
          unfold computeIsDefault
          rw [if_neg (by rw [hglobal]; exact Bool.false_ne_true)]
          have hml : mixinLanguage { cur with pages := hostMovePage cur.pages t.id tgt.id } t.id = mixinLanguage db0 t.id :=
            mixinLanguage_congr h2 h3 t.id
          rw [hml]
          cases hm2 : mixinLanguage db0 t.id with
          | none =>
            exfalso
            have h5 := hsome t (List.mem_cons_self t ts)
            rw [hm2] at h5
            simp at h5
          | some l => exact ⟨l.is_default, rfl⟩
        obtain ⟨bv, hcd⟩ := hcd
        have hms : move_suppressed cur t.id tgt.id pos st = .ok ({ cur with pages := hostMovePage cur.pages t.id tgt.id }) := by
          simp only [move_suppressed]
          rw [hcd]
        rw [hms]
        simp only []
        have hstrip2 : ({ cur with pages := hostMovePage cur.pages t.id tgt.id } : DB).pages.map stripParent = db0.pages.map stripParent := by
          show (hostMovePage cur.pages t.id tgt.id).map stripParent = _
          rw [strip_hostMove]
          exact h1
        refine ih { cur with pages := hostMovePage cur.pages t.id tgt.id }
          hstrip2 h2 h3
          (fun u hu => hsome u (List.mem_cons_of_mem t hu))
          (fun u hu => hlen u (List.mem_cons_of_mem t hu)) ?_
        obtain ⟨t0, ht0, hft0⟩ := hex
        rcases List.mem_cons.mp ht0 with heq | ht0tail
        · exfalso
          subst heq
          rw [hft0, hfilt] at hlen_eq
          simp at hlen_eq
        · exact ⟨t0, ht0tail, hft0⟩

/-- C8: during move propagation (tree sync on, global mode, default-language
page), if some translation's language has no page matching the canonical
target, the propagation fails with `TranslatablePage.DoesNotExist` (the
spec's `SyncPreconditionError`): the whole move returns an error, so the
translation is not reparented anywhere and no fallback is attempted. -/
theorem C8_missing_mirror_target_fails (db : DB) (pid target : Nat)
    (st : Settings) (p : TranslatablePage) (L : Language)
    (hsync : st.sync_tree = true) (hglobal : st.languages_per_site = false)
    (hp : findPage db pid = some p)
    (hL : mixinLanguage db pid = some L) (hdef : L.is_default = true)
    (hsome : ∀ t ∈ get_translations db p false false,
      (mixinLanguage db t.id).isSome)
    (hlen : ∀ t ∈ get_translations db p false false,
      (db.pages.filter (matchesMoveTarget (resolveCanonicalTarget db target) t.language)).length ≤ 1)
    (hex : ∃ t ∈ get_translations db p false false,
      db.pages.filter (matchesMoveTarget (resolveCanonicalTarget db target) t.language) = []) :
    move db pid target none false st = .error .doesNotExist := by
  have hpid : p.id = pid := by simpa using List.find?_some hp
  simp only [move]
  have hml1 : mixinLanguage { db with pages := hostMovePage db.pages pid target } pid = some L := by
    rw [mixinLanguage_congr rfl rfl pid]
    exact hL
  have hcd : computeIsDefault { db with pages := hostMovePage db.pages pid target } pid st = .ok true := by
    unfold computeIsDefault
    rw [if_neg (by rw [hglobal]; exact Bool.false_ne_true)]
    rw [hml1]
    simp [hdef]
  rw [hcd]
  simp only [hsync]
  simp [hsync]
  simp only [move_translated_pages]
  have hp' : db.pages.find? (fun q => q.id == pid) = some p := hp
  have hfp1 : findPage { db with pages := hostMovePage db.pages pid target } pid = some ({ p with parent := some target }) := by
    show (hostMovePage db.pages pid target).find? (fun q => q.id == pid) = _
    rw [findPage_hostMove, hp', Option.map_some', if_pos (by simp [hpid])]
  rw [hfp1]
  simp only []
  rw [get_translations_hostMove db pid target p hpid]
  rw [resolveCanonicalTarget_hostMove db pid target target]
  have hstrip1 : ({ db with pages := hostMovePage db.pages pid target } : DB).pages.map stripParent = db.pages.map stripParent := by
    show (hostMovePage db.pages pid target).map stripParent = _
    exact strip_hostMove db.pages pid target
  exact moveLoop_err st (resolveCanonicalTarget db target) none db hglobal
    (get_translations db p false false)
    { db with pages := hostMovePage db.pages pid target }
    hstrip1 rfl rfl hsome hlen hex

/-- Witness for C8: in `dbC8` the target page 1 has no `fr` mirror, so the
propagated move of canonical page 3 fails with `DoesNotExist`. -/
theorem C8_missing_mirror_target_fails_witness :
    move dbC8 3 1 none false stG = .error .doesNotExist :=
  C8_missing_mirror_target_fails dbC8 3 1 stG pMen enL rfl rfl rfl rfl rfl
    (by decide) (by decide) (by decide)

end Wagtailtrans

